import Mathlib

/-!
Shallow embedding of the emergency dispatch task orchestrator
(`emergency_operator_agent/task_orchestrator.py`) and proofs of the
specified properties.

External collaborators (registry HTTP fetch, per-address agent-card
resolution, the LLM matching call, the peer RPC transport) are modelled as
explicit environment parameters; all orchestrator logic is translated from
the source.
-/

namespace Demo

/-- Task lifecycle states used by the orchestrator (subset of the a2a
`TaskState` enum that the code touches). -/
inductive TaskState
  | submitted
  | working
  | completed
  | failed
  | canceled
deriving DecidableEq, Repr

/-- A single step in the emergency dispatch plan (`DispatchStep`). -/
structure DispatchStep where
  step_id : String
  agent_name : String
  agent_address : String
  agent_description : String
  message : String
  status : TaskState := TaskState.submitted
  response : Option String := none
  error : Option String := none
  request_sent : Option String := none
  response_received : Option String := none
deriving DecidableEq, Repr

/-- An emergency dispatch task with multiple steps (`EmergencyTask`). -/
structure EmergencyTask where
  task_id : String
  context_id : String
  location : String
  description : String
  steps : List DispatchStep := []
  current_step : Int := 0
  state : TaskState := TaskState.submitted
deriving DecidableEq, Repr

/-- `EmergencyTask.add_step`: append a dispatch step to the task plan. -/
def EmergencyTask.add_step (t : EmergencyTask)
    (agent_name agent_address agent_description message : String) :
    EmergencyTask :=
  let step : DispatchStep :=
    { step_id := t.task_id ++ "-step-" ++ toString t.steps.length
      agent_name := agent_name
      agent_address := agent_address
      agent_description := agent_description
      message := message }
  { t with steps := t.steps ++ [step] }

/-- `EmergencyTask.get_current_step`: the current step being executed, if
the cursor is in range. -/
def EmergencyTask.get_current_step (t : EmergencyTask) : Option DispatchStep :=
  if 0 ≤ t.current_step ∧ t.current_step < (t.steps.length : Int) then
    t.steps[t.current_step.toNat]?
  else
    none

/-- `EmergencyTask.advance_step`: move to the next step; the boolean is
`False` when no more steps remain. -/
def EmergencyTask.advance_step (t : EmergencyTask) : EmergencyTask × Bool :=
  let t' := { t with current_step := t.current_step + 1 }
  (t', decide (t'.current_step < (t'.steps.length : Int)))

/-- `EmergencyTask.is_complete`: whether all steps are completed
(`current_step >= len(steps)`). -/
def EmergencyTask.is_complete (t : EmergencyTask) : Bool :=
  decide ((t.steps.length : Int) ≤ t.current_step)

/-- `EmergencyTask.get_progress`: progress as `(completed, total)`. -/
def EmergencyTask.get_progress (t : EmergencyTask) : Int × Int :=
  (t.current_step, (t.steps.length : Int))

/-- C6: on any `EmergencyTask`, `add_step` appends exactly one new Pending
step at the end, `get_current_step` returns the step at the cursor exactly
when the cursor is in range, `advance_step` increments the cursor by one and
reports whether steps remain, `is_complete` holds iff the cursor has reached
the step count, and `get_progress` is `(cursor, step count)`. -/
theorem C6_sequencer_operations (t : EmergencyTask)
    (n addr desc msg : String) :
    ((t.add_step n addr desc msg).steps =
        t.steps ++
          [{ step_id := t.task_id ++ "-step-" ++ toString t.steps.length
             agent_name := n, agent_address := addr
             agent_description := desc, message := msg
             status := TaskState.submitted }]) ∧
    (∀ h : 0 ≤ t.current_step ∧ t.current_step < (t.steps.length : Int),
        t.get_current_step =
          some (t.steps.get ⟨t.current_step.toNat, by omega⟩)) ∧
    (¬ (0 ≤ t.current_step ∧ t.current_step < (t.steps.length : Int)) →
        t.get_current_step = none) ∧
    ((t.advance_step).1.current_step = t.current_step + 1 ∧
      (t.advance_step).1.steps = t.steps ∧
      ((t.advance_step).2 = true ↔
        t.current_step + 1 < (t.steps.length : Int))) ∧
    (t.is_complete = true ↔ (t.steps.length : Int) ≤ t.current_step) ∧
    t.get_progress = (t.current_step, (t.steps.length : Int)) := by
  refine ⟨rfl, ?_, ?_, ⟨rfl, rfl, by simp [EmergencyTask.advance_step]⟩,
    by simp [EmergencyTask.is_complete], rfl⟩
  · intro h
    have hlt : t.current_step.toNat < t.steps.length := by omega
    simp [EmergencyTask.get_current_step, h, List.getElem?_eq_getElem hlt,
      List.get_eq_getElem]
  · intro h
    simp [EmergencyTask.get_current_step, h]

/-- Witness for C6 at a concrete task. -/
theorem C6_sequencer_operations_witness :
    ({ task_id := "t", context_id := "c", location := "", description := "d"
       steps := [{ step_id := "t-step-0", agent_name := "Fire"
                   agent_address := "http://fire"
                   agent_description := "fires", message := "go" }]
       : EmergencyTask }).get_progress = (0, 1) := by
  have h := C6_sequencer_operations
    { task_id := "t", context_id := "c", location := "", description := "d"
      steps := [{ step_id := "t-step-0", agent_name := "Fire"
                  agent_address := "http://fire"
                  agent_description := "fires", message := "go" }] }
    "Fire" "http://fire" "fires" "go"
  exact h.2.2.2.2.2

/-- A skill advertised on an agent card. -/
structure AgentSkill where
  name : String
  description : String
  tags : List String
deriving DecidableEq, Repr

/-- A peer agent card (the fields the orchestrator reads). -/
structure AgentCard where
  name : String
  description : String
  skills : List AgentSkill := []
deriving DecidableEq, Repr

/-- Python-dict insertion on an association list: overwrite in place when
the key exists, otherwise append (preserving insertion order). -/
def dictInsert {α : Type} (d : List (String × α)) (k : String) (v : α) :
    List (String × α) :=
  if d.any (fun p => p.1 = k) then
    d.map (fun p => if p.1 = k then (k, v) else p)
  else
    d ++ [(k, v)]

/-- Python-dict lookup on an association list. -/
def dictGet {α : Type} (d : List (String × α)) (k : String) : Option α :=
  (d.find? (fun p => p.1 = k)).map Prod.snd

/-- Python-dict deletion on an association list. -/
def dictRemove {α : Type} (d : List (String × α)) (k : String) :
    List (String × α) :=
  d.filter (fun p => p.1 ≠ k)

/-- One `TaskStatusUpdateEvent` as produced by `_send_message`: a working
status update carrying a text message and a `final` flag. -/
structure StatusEvent where
  task_id : String
  context_id : String
  state : TaskState
  text : String
  final : Bool
deriving DecidableEq, Repr

/-- `_send_message`: build a working-state status update event with the
given text and `final` flag (default `False`). -/
def send_message (task_id context_id text : String)
    (final : Bool := false) : StatusEvent :=
  { task_id := task_id, context_id := context_id
    state := TaskState.working, text := text, final := final }

/-- Cache TTL: 60 seconds (`AGENT_CACHE_TTL_SECONDS`). -/
def AGENT_CACHE_TTL_SECONDS : Int := 60

/-- The class-level agent-catalog cache: `_class_agent_cache` and
`_class_cache_timestamp` (timestamps in seconds). -/
structure AgentsCacheState where
  cache : Option (List (String × AgentCard))
  timestamp : Option Int
deriving DecidableEq, Repr

/-- `_is_cache_valid`: the cache is valid when both the cache and its
timestamp are present and the age is strictly below the TTL. -/
def is_cache_valid (s : AgentsCacheState) (now : Int) : Bool :=
  match s.cache with
  | none => false
  | some _ =>
    match s.timestamp with
    | none => false
    | some ts => decide (now - ts < AGENT_CACHE_TTL_SECONDS)

/-- Environment for a catalog fetch: the address list the registry returns
(empty when the registry is unreachable), the per-address card resolution
(`none` when resolution fails and the entry is dropped), and the current
time in seconds. -/
structure FetchEnv where
  addresses : List String
  resolve : String → Option AgentCard
  now : Int

/-- Result of `_fetch_available_agents`: the returned catalog, the updated
class-level cache state, whether the registry was queried, which addresses
had a per-address card fetch attempted, and the progress events sent. -/
structure FetchResult where
  agents : List (String × AgentCard)
  state : AgentsCacheState
  registryFetched : Bool
  resolvedAddresses : List String
  events : List StatusEvent
deriving Repr

/-- The per-address resolution loop of `_fetch_available_agents`: resolve
each address in order, dropping failures, emitting a keep-alive progress
event on every other index when an event queue is attached. -/
def fetchLoop (resolve : String → Option AgentCard)
    (qctx : Option (String × String)) (total : Nat) :
    List String → Nat → List (String × AgentCard) → List StatusEvent →
    List (String × AgentCard) × List StatusEvent
  | [], _, agents, events => (agents, events)
  | addr :: rest, idx, agents, events =>
    let events := events ++
      (match qctx with
       | some (tid, cid) =>
         if idx % 2 = 1 then
           [send_message tid cid
             ("Checking service " ++ toString idx ++ "/" ++ toString total
               ++ "...")]
         else []
       | none => [])
    let agents :=
      match resolve addr with
      | some card => dictInsert agents addr card
      | none => agents
    fetchLoop resolve qctx total rest (idx + 1) agents events

/-- `_fetch_available_agents`: return the cached catalog while the cache is
valid; otherwise fetch the registry's address list, resolve each address,
and cache the result only when it is non-empty. -/
def fetch_available_agents (s : AgentsCacheState) (env : FetchEnv)
    (qctx : Option (String × String)) : FetchResult :=
  if is_cache_valid s env.now then
    { agents := s.cache.getD []
      state := s
      registryFetched := false
      resolvedAddresses := []
      events := [] }
  else
    let addresses := env.addresses
    if addresses.isEmpty then
      { agents := []
        state := s
        registryFetched := true
        resolvedAddresses := []
        events := [] }
    else
      let discovery :=
        match qctx with
        | some (tid, cid) =>
          [send_message tid cid
            ("Discovering " ++ toString addresses.length
              ++ " emergency services...")]
        | none => []
      let (agents, loopEvents) :=
        fetchLoop env.resolve qctx addresses.length addresses 1 [] []
      if agents.isEmpty then
        { agents := agents
          state := s
          registryFetched := true
          resolvedAddresses := addresses
          events := discovery ++ loopEvents }
      else
        { agents := agents
          state := { cache := some agents, timestamp := some env.now }
          registryFetched := true
          resolvedAddresses := addresses
          events := discovery ++ loopEvents }

/-- C4: a cached catalog whose age is strictly below the 60-second TTL is
returned unchanged with no registry query and no per-address fetch; an
absent or expired cache triggers a fresh registry fetch. -/
theorem C4_cache_ttl (s : AgentsCacheState) (env : FetchEnv)
    (qctx : Option (String × String)) :
    (∀ c ts, s.cache = some c → s.timestamp = some ts →
      env.now - ts < AGENT_CACHE_TTL_SECONDS →
      (fetch_available_agents s env qctx).agents = c ∧
      (fetch_available_agents s env qctx).state = s ∧
      (fetch_available_agents s env qctx).registryFetched = false ∧
      (fetch_available_agents s env qctx).resolvedAddresses = []) ∧
    ((s.cache = none ∨ ∃ ts, s.timestamp = some ts ∧
        AGENT_CACHE_TTL_SECONDS ≤ env.now - ts) →
      (fetch_available_agents s env qctx).registryFetched = true) := by
  constructor
  · intro c ts hc ht hage
    have hvalid : is_cache_valid s env.now = true := by
      simp [is_cache_valid, hc, ht, hage]
    simp [fetch_available_agents, hvalid, hc]
  · intro h
    have hinvalid : is_cache_valid s env.now = false := by
      rcases h with h | ⟨ts, ht, hage⟩
      · simp [is_cache_valid, h]
      · cases hc : s.cache with
        | none => simp [is_cache_valid, hc]
        | some c => simp [is_cache_valid, hc, ht]; omega
    simp only [fetch_available_agents, hinvalid, Bool.false_eq_true,
      if_false]
    by_cases he : env.addresses.isEmpty
    · simp [he]
    · simp only [he, Bool.false_eq_true, if_false]
      by_cases hl :
        (fetchLoop env.resolve qctx env.addresses.length
          env.addresses 1 [] []).1.isEmpty
      · simp [hl]
      · simp [hl]

/-- Witness for C4 at a concrete cache state and environment. -/
theorem C4_cache_ttl_witness :
    (fetch_available_agents
        { cache := some [("http://fire", { name := "Fire", description := "f" })]
          timestamp := some 0 }
        { addresses := [], resolve := fun _ => none, now := 30 }
        none).agents =
      [("http://fire", { name := "Fire", description := "f" })] := by
  have h := C4_cache_ttl
    { cache := some [("http://fire", { name := "Fire", description := "f" })]
      timestamp := some 0 }
    { addresses := [], resolve := fun _ => none, now := 30 }
    none
  exact (h.1 [("http://fire", { name := "Fire", description := "f" })] 0
    rfl rfl (by decide)).1

/-- C3: when the cache is not valid a fresh fetch happens; if it resolves
zero peers the cache state is left unchanged (present or absent) while the
empty catalog is still returned, and if it resolves at least one peer both
the cache and its timestamp are replaced with the fetch result. -/
theorem C3_empty_fetch_preserves_cache (s : AgentsCacheState)
    (env : FetchEnv) (qctx : Option (String × String))
    (hmiss : is_cache_valid s env.now = false) :
    ((fetch_available_agents s env qctx).agents = [] →
      (fetch_available_agents s env qctx).state = s) ∧
    ((fetch_available_agents s env qctx).agents ≠ [] →
      (fetch_available_agents s env qctx).state =
        { cache := some (fetch_available_agents s env qctx).agents
          timestamp := some env.now }) := by
  simp only [fetch_available_agents, hmiss, Bool.false_eq_true, if_false]
  by_cases he : env.addresses.isEmpty
  · simp [he]
  · simp only [he, Bool.false_eq_true, if_false]
    by_cases hl :
      (fetchLoop env.resolve qctx env.addresses.length
        env.addresses 1 [] []).1.isEmpty
    · have hl2 := hl
      rw [List.isEmpty_iff] at hl2
      constructor
      · intro _; simp [hl]
      · intro hne
        exfalso
        apply hne
        simp [hl, hl2]
    · have hl2 : (fetchLoop env.resolve qctx env.addresses.length
          env.addresses 1 [] []).1 ≠ [] := by
        simpa [List.isEmpty_iff] using hl
      constructor
      · intro hempty
        rw [if_neg hl] at hempty
        exact absurd hempty hl2
      · intro _
        simp [hl]

/-- Witness for C3: a stale non-empty cache survives a fetch that resolves
zero peers. -/
theorem C3_empty_fetch_preserves_cache_witness :
    (fetch_available_agents
        { cache := some [("http://fire", { name := "Fire", description := "f" })]
          timestamp := some 0 }
        { addresses := ["http://dead"], resolve := fun _ => none, now := 120 }
        none).state =
      { cache := some [("http://fire", { name := "Fire", description := "f" })]
        timestamp := some 0 } := by
  have h := C3_empty_fetch_preserves_cache
    { cache := some [("http://fire", { name := "Fire", description := "f" })]
      timestamp := some 0 }
    { addresses := ["http://dead"], resolve := fun _ => none, now := 120 }
    none (by decide)
  exact h.1 rfl

/-- Outcome of the LLM matching call, as observed by
`_match_agents_to_emergency`: the call can raise, return empty content,
return content that fails JSON parsing, or return a parsed `agents` name
list (absent key defaults to the empty list). -/
inductive LLMMatchOutcome
  | failure
  | emptyContent
  | unparseable
  | parsed (agents : List String)
deriving DecidableEq, Repr

/-- The `address_to_card` map built by `_match_agents_to_emergency`:
`card.name -> (address, card)`, later entries overwriting earlier ones. -/
def buildNameMap (available : List (String × AgentCard)) :
    List (String × (String × AgentCard)) :=
  available.foldl (fun m p => dictInsert m p.2.name (p.1, p.2)) []

/-- `_match_agents_to_emergency`: empty catalog short-circuits to no
matches without calling the LLM; an LLM failure, empty response or
unparseable response yields no matches; otherwise the returned names are
mapped back through `address_to_card`, unknown names dropped. The boolean
records whether the LLM collaborator was called. -/
def match_agents_to_emergency (message : String)
    (available : List (String × AgentCard))
    (llm : String → LLMMatchOutcome) :
    List (String × AgentCard) × Bool :=
  if available.isEmpty then
    ([], false)
  else
    let address_to_card := buildNameMap available
    match llm message with
    | .failure => ([], true)
    | .emptyContent => ([], true)
    | .unparseable => ([], true)
    | .parsed selected_agent_names =>
      (selected_agent_names.filterMap
        (fun agent_name => dictGet address_to_card agent_name), true)

/-- Specification-side lookup: the last catalog entry whose card name is
`n` (the entry a Python dict keyed by name retains). -/
def lastEntryWithName (available : List (String × AgentCard)) (n : String) :
    Option (String × AgentCard) :=
  (available.filter (fun p => p.2.name = n)).getLast?

theorem dictGet_cons_eval {α : Type} (p : String × α)
    (t : List (String × α)) (k : String) :
    dictGet (p :: t) k = if p.1 = k then some p.2 else dictGet t k := by
  by_cases h : p.1 = k <;> simp [dictGet, List.find?, h]

theorem dictGet_map_overwrite {α : Type} (t : List (String × α))
    (k k' : String) (v : α) (hne : k' ≠ k) :
    dictGet (t.map (fun p => if p.1 = k then (k, v) else p)) k' =
      dictGet t k' := by
  induction t with
  | nil => rfl
  | cons q t ih =>
    by_cases hq : q.1 = k
    · have hq' : ¬ q.1 = k' := by rw [hq]; exact fun hh => hne hh.symm
      rw [List.map_cons, if_pos hq, dictGet_cons_eval, dictGet_cons_eval]
      simp [Ne.symm hne, hq', ih]
    · rw [List.map_cons, if_neg hq, dictGet_cons_eval, dictGet_cons_eval]
      by_cases hq' : q.1 = k'
      · simp [hq']
      · simp [hq', ih]

theorem dictGet_map_overwrite_self {α : Type} (t : List (String × α))
    (k : String) (v : α) (h : t.any (fun q => q.1 = k) = true) :
    dictGet (t.map (fun p => if p.1 = k then (k, v) else p)) k = some v := by
  induction t with
  | nil => simp at h
  | cons q t ih =>
    rw [List.map_cons, dictGet_cons_eval]
    by_cases hq : q.1 = k
    · simp [hq]
    · have h' : t.any (fun q => q.1 = k) = true := by
        rw [List.any_cons] at h
        simpa [hq] using h
      simp [hq, ih h']

theorem dictGet_append_absent {α : Type} (d : List (String × α))
    (k k' : String) (v : α) (h : d.any (fun q => q.1 = k) = false) :
    dictGet (d ++ [(k, v)]) k' =
      if k' = k then some v else dictGet d k' := by
  induction d with
  | nil =>
    by_cases hk : k' = k
    · simp [dictGet_cons_eval, hk, dictGet]
    · simp [dictGet_cons_eval, hk, Ne.symm hk, dictGet]
  | cons q t ih =>
    simp only [List.any_cons, Bool.or_eq_false_iff] at h
    have hqk : ¬ q.1 = k := by simpa using h.1
    rw [List.cons_append, dictGet_cons_eval, dictGet_cons_eval, ih h.2]
    by_cases hq' : q.1 = k'
    · have hk' : ¬ k' = k := fun hh => hqk (hq'.trans hh)
      simp [hq', hk']
    · simp [hq']

theorem dictGet_dictInsert {α : Type} (d : List (String × α))
    (k k' : String) (v : α) :
    dictGet (dictInsert d k v) k' =
      if k' = k then some v else dictGet d k' := by
  by_cases hany : d.any (fun p => p.1 = k) = true
  · rw [dictInsert, if_pos hany]
    by_cases hk' : k' = k
    · rw [hk', dictGet_map_overwrite_self d k v hany, if_pos rfl]
    · rw [dictGet_map_overwrite d k k' v hk', if_neg hk']
  · rw [dictInsert, if_neg hany]
    exact dictGet_append_absent d k k' v (Bool.eq_false_iff.mpr hany)

theorem dictGet_buildNameMap (available : List (String × AgentCard))
    (n : String) :
    dictGet (buildNameMap available) n = lastEntryWithName available n := by
  induction available using List.reverseRecOn with
  | nil => rfl
  | append_singleton l p ih =>
    have hbuild : buildNameMap (l ++ [p]) =
        dictInsert (buildNameMap l) p.2.name (p.1, p.2) := by
      simp [buildNameMap, List.foldl_append]
    rw [hbuild, dictGet_dictInsert]
    by_cases hn : n = p.2.name
    · rw [if_pos hn]
      unfold lastEntryWithName
      rw [List.filter_append]
      have hone : List.filter (fun q => q.2.name = n) [p] = [p] := by
        simp [hn.symm]
      rw [hone, List.getLast?_concat]
    · rw [if_neg hn, ih]
      unfold lastEntryWithName
      rw [List.filter_append]
      have hnone : List.filter (fun q => q.2.name = n) [p] = [] := by
        simp
        exact fun hh => hn hh.symm
      rw [hnone, List.append_nil]

/-- C5: the matcher returns the empty list on an empty catalog without
calling the collaborator; it returns the empty list when the collaborator
call fails, returns empty content, or returns unparseable content; and on a
parsed name list it returns exactly the catalog descriptors of the returned
names (resolved as a name-keyed dict, so the last catalog entry with each
name), in the collaborator's order, dropping unknown names. -/
theorem C5_matcher_fail_closed_and_order (message : String)
    (available : List (String × AgentCard))
    (llm : String → LLMMatchOutcome) :
    (available = [] →
      match_agents_to_emergency message available llm = ([], false)) ∧
    (available ≠ [] →
      (match_agents_to_emergency message available llm).2 = true) ∧
    (available ≠ [] →
      (llm message = LLMMatchOutcome.failure ∨
        llm message = LLMMatchOutcome.emptyContent ∨
        llm message = LLMMatchOutcome.unparseable) →
      (match_agents_to_emergency message available llm).1 = []) ∧
    (∀ names, available ≠ [] → llm message = LLMMatchOutcome.parsed names →
      (match_agents_to_emergency message available llm).1 =
        names.filterMap (lastEntryWithName available)) := by
  refine ⟨?_, ?_, ?_, ?_⟩
  · intro h
    simp [match_agents_to_emergency, h]
  · intro h
    rw [match_agents_to_emergency, if_neg (by simpa [List.isEmpty_iff] using h)]
    cases llm message <;> rfl
  · intro h hfail
    rw [match_agents_to_emergency, if_neg (by simpa [List.isEmpty_iff] using h)]
    rcases hfail with hf | hf | hf <;> rw [hf]
  · intro names h hparsed
    rw [match_agents_to_emergency, if_neg (by simpa [List.isEmpty_iff] using h)]
    rw [hparsed]
    simp only []
    congr 1
    funext agent_name
    exact dictGet_buildNameMap available agent_name

/-- Witness for C5: a two-entry catalog, the collaborator returning one
known and one unknown name. -/
theorem C5_matcher_fail_closed_and_order_witness :
    (match_agents_to_emergency "fire at 10 Main St"
        [("http://fire", { name := "Fire", description := "f" }),
         ("http://police", { name := "Police", description := "p" })]
        (fun _ => LLMMatchOutcome.parsed ["Police", "Ghost"])).1 =
      [("http://police", { name := "Police", description := "p" })] := by
  have h := C5_matcher_fail_closed_and_order "fire at 10 Main St"
    [("http://fire", { name := "Fire", description := "f" }),
     ("http://police", { name := "Police", description := "p" })]
    (fun _ => LLMMatchOutcome.parsed ["Police", "Ghost"])
  rw [h.2.2.2 ["Police", "Ghost"] (by decide) rfl]
  rfl

/-- A peer RPC response; the orchestrator never inspects its content. -/
structure SendMessageResponse where
  payload : String
deriving DecidableEq, Repr

/-- Outcome of one peer RPC attempt as observed inside
`_dispatch_to_agent`'s try block: either a response, or one of the
exception classes the catch-all absorbs. -/
inductive RpcOutcome
  | response (r : SendMessageResponse)
  | connectError (reason : String)
  | timeoutError (reason : String)
  | protocolError (reason : String)
  | malformedResponse (reason : String)
deriving DecidableEq, Repr

/-- Whether an RPC outcome is a response (success). -/
def RpcOutcome.isResponse : RpcOutcome → Bool
  | .response _ => true
  | _ => false

/-- `_dispatch_to_agent`: perform the peer call; every exception class is
caught and normalized to `None`. Total — nothing propagates to the
caller. -/
def dispatch_to_agent (net : String → String → RpcOutcome)
    (_agent_name agent_address message _context_id : String) :
    Option SendMessageResponse :=
  match net agent_address message with
  | .response r => some r
  | .connectError _ => none
  | .timeoutError _ => none
  | .protocolError _ => none
  | .malformedResponse _ => none

/-- `_extract_response_text`: constant `"En route"` regardless of the
response content ("Simplified for now to avoid type issues"). -/
def extract_response_text (_response : SendMessageResponse) : String :=
  "En route"

/-- One dispatch call made to a peer during execution. -/
structure DispatchCall where
  agent_name : String
  agent_address : String
  message : String
  context_id : String
deriving DecidableEq, Repr

/-- The mutation a loop iteration of `execute_task` applies to its step:
mark it working, dispatch, then mark it completed with the extracted
response text or failed with the error reason. -/
def processStep (net : String → String → RpcOutcome) (context_id : String)
    (step : DispatchStep) : DispatchStep :=
  let step1 := { step with status := TaskState.working }
  match dispatch_to_agent net step.agent_name step.agent_address
      step.message context_id with
  | some response =>
    { step1 with status := TaskState.completed
                 response_received := some (extract_response_text response) }
  | none =>
    { step1 with status := TaskState.failed
                 error := some "Failed to contact agent" }

/-- Replace step `i` of a task in place. -/
def setStep (t : EmergencyTask) (i : Nat) (s : DispatchStep) :
    EmergencyTask :=
  { t with steps := t.steps.set i s }

/-- The step loop of `execute_task` from index `i`: for each remaining
step, mark it working, emit the contacting event, dispatch, record the
outcome on the step, emit the per-step result event, and advance the
cursor. Returns the final task, the emitted events, the dispatch calls
made, and the intermediate task snapshots (one per mutation, ending with
the final task). -/
def runStepsFrom (net : String → String → RpcOutcome) (total : Nat)
    (i : Nat) (t : EmergencyTask) :
    EmergencyTask × List StatusEvent × List DispatchCall ×
      List EmergencyTask :=
  if h : i < t.steps.length then
    let step := t.steps.get ⟨i, h⟩
    let t1 := setStep t i { step with status := TaskState.working }
    let progress := "[" ++ toString (i + 1) ++ "/" ++ toString total ++ "]"
    let contactEvent := send_message t.task_id t.context_id
      (progress ++ " Contacting " ++ step.agent_name ++ "...")
    let call : DispatchCall :=
      { agent_name := step.agent_name, agent_address := step.agent_address
        message := step.message, context_id := t.context_id }
    let resultEvent :=
      match dispatch_to_agent net step.agent_name step.agent_address
          step.message t.context_id with
      | some response => send_message t.task_id t.context_id
          (progress ++ " " ++ step.agent_name ++ " confirmed: "
            ++ extract_response_text response)
      | none => send_message t.task_id t.context_id
          (progress ++ " ⚠️  Failed to reach " ++ step.agent_name)
    let t2 := setStep t1 i (processStep net t.context_id step)
    let t3 := (t2.advance_step).1
    let rest := runStepsFrom net total (i + 1) t3
    (rest.1, contactEvent :: resultEvent :: rest.2.1,
      call :: rest.2.2.1, t1 :: t2 :: t3 :: rest.2.2.2)
  else
    (t, [], [], [t])
termination_by t.steps.length - i
decreasing_by
  simp only [EmergencyTask.advance_step, setStep, List.length_set]
  omega

/-- The all-succeeded final summary message of `execute_task`. -/
def successMsgText (successful : List DispatchStep) : String :=
  let services_str := String.intercalate ", "
    (successful.map (fun s => s.agent_name))
  "[COMPLETE] Emergency dispatch successful! " ++ services_str ++ " "
    ++ (if successful.length = 1 then "is" else "are")
    ++ " on the way. Help is coming. Please stay safe and wait for "
    ++ "emergency services to arrive."

/-- The completed-with-issues final summary message of `execute_task`. -/
def failureMsgText (successful failed : List DispatchStep) : String :=
  let success_str :=
    if successful.isEmpty then "none"
    else String.intercalate ", " (successful.map (fun s => s.agent_name))
  let fail_str := String.intercalate ", " (failed.map (fun s => s.agent_name))
  "[COMPLETE] Dispatch completed with issues. Successfully contacted: "
    ++ success_str ++ ". Failed to reach: " ++ fail_str
    ++ ". Please remain on the line for further assistance."

/-- Orchestrator instance state: the in-memory active-task map. -/
structure Orchestrator where
  active_tasks : List (String × EmergencyTask)
deriving DecidableEq, Repr

/-- Observable outcome of `execute_task`: the final task, the events
emitted in order, the dispatch calls made, the orchestrator state after
cleanup, and the sequence of task snapshots during execution. -/
structure ExecOutcome where
  task : EmergencyTask
  events : List StatusEvent
  dispatches : List DispatchCall
  orchestrator : Orchestrator
  trace : List EmergencyTask
deriving Repr

/-- `execute_task`: zero steps short-circuits with one (non-final) event;
otherwise mark the task working, emit the dispatch summary, run every
step, mark the task completed, emit the final summary with `final=True`,
and drop the task from the active-task map. -/
def execute_task (net : String → String → RpcOutcome) (o : Orchestrator)
    (task : EmergencyTask) : ExecOutcome :=
  if task.steps.isEmpty then
    { task := task
      events := [send_message task.task_id task.context_id
        "[COMPLETE] No emergency services required for this request."]
      dispatches := []
      orchestrator := o
      trace := [task] }
  else
    let task1 := { task with state := TaskState.working }
    let services_list := String.intercalate ", "
      (task1.steps.map (fun s => s.agent_name))
    let dispatchEvent := send_message task.task_id task.context_id
      ("[DISPATCH] Contacting emergency services: " ++ services_list)
    let total := task1.steps.length
    let run := runStepsFrom net total 0 task1
    let task3 := { run.1 with state := TaskState.completed }
    let successful := task3.steps.filter
      (fun s => s.status = TaskState.completed)
    let failed := task3.steps.filter (fun s => s.status = TaskState.failed)
    let final_msg :=
      if failed.isEmpty then successMsgText successful
      else failureMsgText successful failed
    let finalEvent := send_message task.task_id task.context_id
      final_msg true
    let o2 :=
      if o.active_tasks.any (fun p => p.1 = task.task_id) then
        { active_tasks := dictRemove o.active_tasks task.task_id }
      else o
    { task := task3
      events := dispatchEvent :: run.2.1 ++ [finalEvent]
      dispatches := run.2.2.1
      orchestrator := o2
      trace := task :: task1 :: run.2.2.2 ++ [task3] }

theorem list_take_succ_set {α : Type} (l : List α) (i : Nat) (a : α)
    (h : i < l.length) : (l.set i a).take (i + 1) = l.take i ++ [a] := by
  induction l generalizing i with
  | nil => simp at h
  | cons b t ih =>
    cases i with
    | zero => simp
    | succ n =>
      simp only [List.set_cons_succ, List.take_succ_cons, List.cons_append,
        List.length_cons] at *
      rw [ih n (by omega)]

theorem list_drop_succ_set {α : Type} (l : List α) (i : Nat) (a : α) :
    (l.set i a).drop (i + 1) = l.drop (i + 1) := by
  induction l generalizing i with
  | nil => simp
  | cons b t ih =>
    cases i with
    | zero => simp
    | succ n =>
      simp only [List.set_cons_succ, List.drop_succ_cons]
      exact ih n

/-- The observable description of one dispatch call. -/
def mkDispatchCall (context_id : String) (s : DispatchStep) : DispatchCall :=
  { agent_name := s.agent_name, agent_address := s.agent_address
    message := s.message, context_id := context_id }

theorem runStepsFrom_stop (net : String → String → RpcOutcome)
    (total i : Nat) (t : EmergencyTask) (h : ¬ i < t.steps.length) :
    runStepsFrom net total i t = (t, [], [], [t]) := by
  rw [runStepsFrom]
  simp [h]

theorem runStepsFrom_spec (net : String → String → RpcOutcome)
    (total : Nat) :
    ∀ (k i : Nat) (t : EmergencyTask), t.steps.length - i = k →
    (runStepsFrom net total i t).1 =
      { t with
        steps := t.steps.take i ++
          (t.steps.drop i).map (processStep net t.context_id)
        current_step :=
          t.current_step + ((t.steps.length - i : Nat) : Int) } ∧
    (runStepsFrom net total i t).2.2.1 =
      (t.steps.drop i).map (mkDispatchCall t.context_id) := by
  intro k
  induction k with
  | zero =>
    intro i t hk
    have h : ¬ i < t.steps.length := by omega
    rw [runStepsFrom_stop net total i t h]
    have h1 : t.steps.drop i = [] := List.drop_eq_nil_of_le (by omega)
    have h2 : t.steps.take i = t.steps := List.take_of_length_le (by omega)
    refine ⟨?_, by simp [h1]⟩
    cases t with
    | mk tid cid loc desc steps cur st =>
      have hz : steps.length - i = 0 := hk
      simp [h1, h2, hz]
  | succ k ih =>
    intro i t hk
    have h : i < t.steps.length := by omega
    rw [runStepsFrom]
    rw [dif_pos h]
    simp only [setStep, EmergencyTask.advance_step, List.set_set]
    have hk3 : ({ t with
        steps := t.steps.set i
          (processStep net t.context_id (t.steps.get ⟨i, h⟩))
        current_step := t.current_step + 1 } :
          EmergencyTask).steps.length - (i + 1) = k := by
      simp only [List.length_set]
      omega
    obtain ⟨ih1, ih2⟩ := ih (i + 1) _ hk3
    rw [ih1, ih2]
    dsimp only
    constructor
    · rw [list_take_succ_set _ _ _ h, list_drop_succ_set,
        List.drop_eq_getElem_cons h]
      simp only [EmergencyTask.mk.injEq, List.map_cons, List.length_set,
        List.append_assoc, List.singleton_append, List.get_eq_getElem,
        true_and, and_true]
      omega
    · rw [list_drop_succ_set, List.drop_eq_getElem_cons h]
      simp only [List.map_cons]
      rfl

theorem runStepsFrom_result (net : String → String → RpcOutcome)
    (total : Nat) (t : EmergencyTask) :
    (runStepsFrom net total 0 t).1 =
      { t with
        steps := t.steps.map (processStep net t.context_id)
        current_step := t.current_step + (t.steps.length : Int) } := by
  have h := (runStepsFrom_spec net total t.steps.length 0 t (by omega)).1
  simpa using h

theorem runStepsFrom_calls (net : String → String → RpcOutcome)
    (total : Nat) (t : EmergencyTask) :
    (runStepsFrom net total 0 t).2.2.1 =
      t.steps.map (mkDispatchCall t.context_id) := by
  have h := (runStepsFrom_spec net total t.steps.length 0 t (by omega)).2
  simpa using h

/-- The "Contacting ..." event for step `s` at 0-based index `i`. -/
def contactEventOf (tid cid : String) (total i : Nat)
    (s : DispatchStep) : StatusEvent :=
  send_message tid cid
    ("[" ++ toString (i + 1) ++ "/" ++ toString total ++ "]"
      ++ " Contacting " ++ s.agent_name ++ "...")

/-- The per-step result event for step `s` at 0-based index `i`. -/
def resultEventOf (net : String → String → RpcOutcome) (tid cid : String)
    (total i : Nat) (s : DispatchStep) : StatusEvent :=
  match dispatch_to_agent net s.agent_name s.agent_address s.message cid with
  | some response => send_message tid cid
      ("[" ++ toString (i + 1) ++ "/" ++ toString total ++ "]"
        ++ " " ++ s.agent_name ++ " confirmed: "
        ++ extract_response_text response)
  | none => send_message tid cid
      ("[" ++ toString (i + 1) ++ "/" ++ toString total ++ "]"
        ++ " ⚠️  Failed to reach " ++ s.agent_name)

/-- The per-step events of the loop, two per step. -/
def eventsSpec (net : String → String → RpcOutcome) (tid cid : String)
    (total : Nat) : List DispatchStep → Nat → List StatusEvent
  | [], _ => []
  | s :: rest, i =>
    contactEventOf tid cid total i s ::
      resultEventOf net tid cid total i s ::
        eventsSpec net tid cid total rest (i + 1)

theorem runStepsFrom_events (net : String → String → RpcOutcome)
    (total : Nat) :
    ∀ (k i : Nat) (t : EmergencyTask), t.steps.length - i = k →
    (runStepsFrom net total i t).2.1 =
      eventsSpec net t.task_id t.context_id total (t.steps.drop i) i := by
  intro k
  induction k with
  | zero =>
    intro i t hk
    have h : ¬ i < t.steps.length := by omega
    rw [runStepsFrom_stop net total i t h]
    have h1 : t.steps.drop i = [] := List.drop_eq_nil_of_le (by omega)
    rw [h1]
    rfl
  | succ k ih =>
    intro i t hk
    have h : i < t.steps.length := by omega
    rw [runStepsFrom]
    rw [dif_pos h]
    simp only [setStep, EmergencyTask.advance_step, List.set_set]
    have hk3 : ({ t with
        steps := t.steps.set i
          (processStep net t.context_id (t.steps.get ⟨i, h⟩))
        current_step := t.current_step + 1 } :
          EmergencyTask).steps.length - (i + 1) = k := by
      simp only [List.length_set]
      omega
    rw [ih (i + 1) _ hk3]
    dsimp only
    rw [list_drop_succ_set, List.drop_eq_getElem_cons h]
    rfl

/-- Allowed status transition of a single step between two consecutive
snapshots: unchanged, Pending→InFlight, or InFlight→terminal. -/
def statusStepOk (a b : TaskState) : Prop :=
  a = b ∨ (a = TaskState.submitted ∧ b = TaskState.working) ∨
    (a = TaskState.working ∧
      (b = TaskState.completed ∨ b = TaskState.failed))

/-- Relation between two consecutive task snapshots during execution: the
cursor does not decrease, the step list keeps its length, and every step's
status takes an allowed transition. -/
def taskRel (t1 t2 : EmergencyTask) : Prop :=
  t1.current_step ≤ t2.current_step ∧
  t1.steps.length = t2.steps.length ∧
  ∀ j (h1 : j < t1.steps.length) (h2 : j < t2.steps.length),
    statusStepOk (t1.steps.get ⟨j, h1⟩).status (t2.steps.get ⟨j, h2⟩).status

/-- A terminal step carries exactly the matching payload: a Completed step
has its response text and no error reason, a Failed step has its error
reason and no response text. -/
def stepTerminalOk (s : DispatchStep) : Prop :=
  (s.status = TaskState.completed →
    s.response_received.isSome = true ∧ s.error = none) ∧
  (s.status = TaskState.failed →
    s.error.isSome = true ∧ s.response_received = none)

/-- All steps of a snapshot satisfy `stepTerminalOk`. -/
def taskStepsOk (t : EmergencyTask) : Prop :=
  ∀ s ∈ t.steps, stepTerminalOk s

/-- A step as created by `add_step`: Pending, no payloads. -/
def pristineStep (s : DispatchStep) : Prop :=
  s.status = TaskState.submitted ∧ s.response_received = none ∧
    s.error = none

instance (s : DispatchStep) : Decidable (pristineStep s) := by
  unfold pristineStep
  infer_instance

theorem statusStepOk_refl (a : TaskState) : statusStepOk a a := Or.inl rfl

theorem taskRel_refl_of_eq (t1 t2 : EmergencyTask)
    (hc : t1.current_step ≤ t2.current_step) (hs : t1.steps = t2.steps) :
    taskRel t1 t2 := by
  refine ⟨hc, by rw [hs], ?_⟩
  intro j h1 h2
  have : t1.steps.get ⟨j, h1⟩ = t2.steps.get ⟨j, h2⟩ := by
    simp only [List.get_eq_getElem]
    congr 1
  rw [this]
  exact statusStepOk_refl _

theorem runStepsFrom_trace_last (net : String → String → RpcOutcome)
    (total : Nat) :
    ∀ (k i : Nat) (t : EmergencyTask), t.steps.length - i = k →
    (runStepsFrom net total i t).2.2.2 ≠ [] ∧
    (runStepsFrom net total i t).2.2.2.getLast? =
      some (runStepsFrom net total i t).1 := by
  intro k
  induction k with
  | zero =>
    intro i t hk
    have h : ¬ i < t.steps.length := by omega
    rw [runStepsFrom_stop net total i t h]
    exact ⟨by simp, rfl⟩
  | succ k ih =>
    intro i t hk
    have h : i < t.steps.length := by omega
    rw [runStepsFrom]
    rw [dif_pos h]
    simp only [setStep, EmergencyTask.advance_step, List.set_set]
    have hk3 : ({ t with
        steps := t.steps.set i
          (processStep net t.context_id (t.steps.get ⟨i, h⟩))
        current_step := t.current_step + 1 } :
          EmergencyTask).steps.length - (i + 1) = k := by
      simp only [List.length_set]
      omega
    obtain ⟨hne, hlast⟩ := ih (i + 1) _ hk3
    refine ⟨by simp, ?_⟩
    dsimp only
    rw [show ∀ (a b c : EmergencyTask) (l : List EmergencyTask),
        a :: b :: c :: l = [a, b, c] ++ l from fun a b c l => rfl]
    rw [List.getLast?_append]
    rw [hlast]
    rfl

theorem processStep_status (net : String → String → RpcOutcome)
    (cid : String) (s : DispatchStep) :
    (processStep net cid s).status = TaskState.completed ∨
    (processStep net cid s).status = TaskState.failed := by
  unfold processStep
  cases dispatch_to_agent net s.agent_name s.agent_address s.message cid <;>
    simp

theorem processStep_terminalOk (net : String → String → RpcOutcome)
    (cid : String) (s : DispatchStep) (hresp : s.response_received = none)
    (herr : s.error = none) : stepTerminalOk (processStep net cid s) := by
  unfold processStep stepTerminalOk
  cases dispatch_to_agent net s.agent_name s.agent_address s.message cid <;>
    simp [hresp, herr]

theorem processStep_completed_iff (net : String → String → RpcOutcome)
    (cid : String) (s : DispatchStep) :
    ((processStep net cid s).status = TaskState.completed) ↔
      (net s.agent_address s.message).isResponse = true := by
  unfold processStep dispatch_to_agent RpcOutcome.isResponse
  cases net s.agent_address s.message <;> simp

theorem processStep_of_response (net : String → String → RpcOutcome)
    (cid : String) (s : DispatchStep) (r : SendMessageResponse)
    (h : net s.agent_address s.message = RpcOutcome.response r) :
    processStep net cid s =
      { s with status := TaskState.completed
               response_received := some "En route" } := by
  unfold processStep dispatch_to_agent
  rw [h]
  rfl

theorem processStep_of_failure (net : String → String → RpcOutcome)
    (cid : String) (s : DispatchStep)
    (h : (net s.agent_address s.message).isResponse = false) :
    processStep net cid s =
      { s with status := TaskState.failed
               error := some "Failed to contact agent" } := by
  unfold processStep dispatch_to_agent
  cases ho : net s.agent_address s.message
  · rw [ho] at h
    simp [RpcOutcome.isResponse] at h
  all_goals rfl

theorem taskRel_set (t : EmergencyTask) (i : Nat) (h : i < t.steps.length)
    (s : DispatchStep)
    (hok : statusStepOk (t.steps.get ⟨i, h⟩).status s.status) :
    taskRel t { t with steps := t.steps.set i s } := by
  refine ⟨le_rfl, by simp, ?_⟩
  intro j h1 h2
  by_cases hj : j = i
  · subst hj
    simp only [List.get_eq_getElem]
    have hset : (t.steps.set j s)[j] = s := List.getElem_set_self (by simpa using h1)
    rw [hset]
    exact hok
  · simp only [List.get_eq_getElem]
    have hset : (t.steps.set i s)[j] = t.steps[j] :=
      List.getElem_set_ne (fun hh => hj hh.symm) (by simpa using h2)
    rw [hset]
    exact statusStepOk_refl _

theorem runStepsFrom_trace_chain (net : String → String → RpcOutcome)
    (total : Nat) :
    ∀ (k i : Nat) (t : EmergencyTask), t.steps.length - i = k →
    (∀ j (hj : j < t.steps.length), i ≤ j →
      (t.steps.get ⟨j, hj⟩).status = TaskState.submitted) →
    List.Chain' taskRel (t :: (runStepsFrom net total i t).2.2.2) := by
  intro k
  induction k with
  | zero =>
    intro i t hk _
    have h : ¬ i < t.steps.length := by omega
    rw [runStepsFrom_stop net total i t h]
    exact List.chain'_cons.mpr
      ⟨taskRel_refl_of_eq t t le_rfl rfl, List.chain'_singleton t⟩
  | succ k ih =>
    intro i t hk hsub
    have h : i < t.steps.length := by omega
    rw [runStepsFrom, dif_pos h]
    simp only [setStep, EmergencyTask.advance_step, List.set_set]
    refine List.chain'_cons.mpr ⟨?_, List.chain'_cons.mpr ⟨?_,
      List.chain'_cons.mpr ⟨?_, ?_⟩⟩⟩
    · -- t → working snapshot
      exact taskRel_set t i h _
        (Or.inr (Or.inl ⟨hsub i h le_rfl, rfl⟩))
    · -- working snapshot → terminal snapshot
      refine ⟨le_rfl, by simp, ?_⟩
      intro j h1 h2
      simp only [List.get_eq_getElem]
      by_cases hj : j = i
      · subst hj
        simp only [List.getElem_set_self]
        rcases processStep_status net t.context_id (t.steps.get ⟨j, h⟩) with
          hc | hf
        · exact Or.inr (Or.inr ⟨rfl, Or.inl hc⟩)
        · exact Or.inr (Or.inr ⟨rfl, Or.inr hf⟩)
      · have hne : i ≠ j := fun hh => hj hh.symm
        simp only [List.getElem_set_ne hne]
        exact statusStepOk_refl _
    · -- terminal snapshot → advanced snapshot
      refine taskRel_refl_of_eq _ _ ?_ rfl
      show t.current_step ≤ t.current_step + 1
      omega
    · -- the rest of the trace
      refine ih (i + 1) _ ?_ ?_
      · simp only [List.length_set]
        omega
      · intro j hj hij
        have hj' : j < t.steps.length := by simpa using hj
        have hne : i ≠ j := by omega
        simp only [List.get_eq_getElem, List.getElem_set_ne hne]
        have := hsub j hj' (by omega)
        simpa [List.get_eq_getElem] using this

theorem stepTerminalOk_working (s : DispatchStep) :
    stepTerminalOk { s with status := TaskState.working } := by
  constructor <;> intro hc <;> simp at hc

theorem stepTerminalOk_submitted (s : DispatchStep)
    (h : s.status = TaskState.submitted) : stepTerminalOk s := by
  constructor <;> intro hc <;> rw [h] at hc <;> simp at hc

theorem taskStepsOk_set (t : EmergencyTask) (i : Nat) (s : DispatchStep)
    (ht : taskStepsOk t) (hs : stepTerminalOk s) :
    ∀ s2 ∈ t.steps.set i s, stepTerminalOk s2 := by
  intro s2 hmem
  rcases List.mem_or_eq_of_mem_set hmem with hm | he
  · exact ht s2 hm
  · rw [he]
    exact hs

theorem runStepsFrom_trace_terminal (net : String → String → RpcOutcome)
    (total : Nat) :
    ∀ (k i : Nat) (t : EmergencyTask), t.steps.length - i = k →
    (∀ j (hj : j < t.steps.length), i ≤ j →
      pristineStep (t.steps.get ⟨j, hj⟩)) →
    taskStepsOk t →
    ∀ t1 ∈ (runStepsFrom net total i t).2.2.2, taskStepsOk t1 := by
  intro k
  induction k with
  | zero =>
    intro i t hk _ hok t1 hmem
    have h : ¬ i < t.steps.length := by omega
    rw [runStepsFrom_stop net total i t h] at hmem
    simp only [List.mem_singleton] at hmem
    rw [hmem]
    exact hok
  | succ k ih =>
    intro i t hk hpr hok
    have h : i < t.steps.length := by omega
    rw [runStepsFrom, dif_pos h]
    simp only [setStep, EmergencyTask.advance_step, List.set_set]
    have hpr_i := hpr i h le_rfl
    have hT1ok : ∀ s2 ∈ t.steps.set i
        ({ t.steps.get ⟨i, h⟩ with status := TaskState.working }),
        stepTerminalOk s2 :=
      taskStepsOk_set t i _ hok (stepTerminalOk_working _)
    have hT2ok : ∀ s2 ∈ t.steps.set i
        (processStep net t.context_id (t.steps.get ⟨i, h⟩)),
        stepTerminalOk s2 :=
      taskStepsOk_set t i _ hok
        (processStep_terminalOk net t.context_id _ hpr_i.2.1 hpr_i.2.2)
    intro t1 hmem
    simp only [List.mem_cons] at hmem
    rcases hmem with h1 | h2 | h3 | hrest
    · rw [h1]
      intro s2 hmem2
      exact hT1ok s2 (by simpa using hmem2)
    · rw [h2]
      intro s2 hmem2
      exact hT2ok s2 (by simpa using hmem2)
    · rw [h3]
      intro s2 hmem2
      exact hT2ok s2 (by simpa using hmem2)
    · refine ih (i + 1) _ ?_ ?_ ?_ t1 hrest
      · simp only [List.length_set]
        omega
      · intro j hj hij
        have hj' : j < t.steps.length := by simpa using hj
        have hne : i ≠ j := by omega
        simp only [List.get_eq_getElem, List.getElem_set_ne hne]
        have := hpr j hj' (by omega)
        simpa [List.get_eq_getElem] using this
      · intro s2 hmem2
        exact hT2ok s2 (by simpa using hmem2)

theorem runStepsFrom_events0 (net : String → String → RpcOutcome)
    (total : Nat) (t : EmergencyTask) :
    (runStepsFrom net total 0 t).2.1 =
      eventsSpec net t.task_id t.context_id total t.steps 0 := by
  have h := runStepsFrom_events net total t.steps.length 0 t (by omega)
  simpa using h

/-- The step list after execution: every step processed in place. -/
def execDone (net : String → String → RpcOutcome) (task : EmergencyTask) :
    List DispatchStep :=
  task.steps.map (processStep net task.context_id)

/-- The final summary text `execute_task` emits for a non-empty task. -/
def finalMsgOf (net : String → String → RpcOutcome)
    (task : EmergencyTask) : String :=
  if ((execDone net task).filter
      (fun s => s.status = TaskState.failed)).isEmpty then
    successMsgText ((execDone net task).filter
      (fun s => s.status = TaskState.completed))
  else
    failureMsgText
      ((execDone net task).filter (fun s => s.status = TaskState.completed))
      ((execDone net task).filter (fun s => s.status = TaskState.failed))

theorem execute_task_nonempty (net : String → String → RpcOutcome)
    (o : Orchestrator) (task : EmergencyTask)
    (h : ¬ task.steps.isEmpty = true) :
    (execute_task net o task).task =
      { task with
        steps := execDone net task
        current_step := task.current_step + (task.steps.length : Int)
        state := TaskState.completed } ∧
    (execute_task net o task).events =
      send_message task.task_id task.context_id
        ("[DISPATCH] Contacting emergency services: " ++
          String.intercalate ", " (task.steps.map (fun s => s.agent_name)))
        :: eventsSpec net task.task_id task.context_id task.steps.length
            task.steps 0
        ++ [send_message task.task_id task.context_id
              (finalMsgOf net task) true] ∧
    (execute_task net o task).dispatches =
      task.steps.map (mkDispatchCall task.context_id) ∧
    (execute_task net o task).orchestrator =
      (if o.active_tasks.any (fun p => p.1 = task.task_id) then
        { active_tasks := dictRemove o.active_tasks task.task_id }
      else o) := by
  unfold execute_task
  rw [if_neg h]
  have hres := runStepsFrom_result net task.steps.length
    { task with state := TaskState.working }
  have hev := runStepsFrom_events0 net task.steps.length
    { task with state := TaskState.working }
  have hcalls := runStepsFrom_calls net task.steps.length
    { task with state := TaskState.working }
  dsimp only at hres hev hcalls ⊢
  rw [hres, hev, hcalls]
  refine ⟨rfl, ?_, rfl, rfl⟩
  simp only [finalMsgOf, execDone]

/-- C7: throughout any execution of `execute_task` on a freshly planned
task (all steps Pending with no payloads), the cursor never decreases
between consecutive snapshots, each step's status only ever takes the
transitions Pending→InFlight→{Completed,Failed} and never reverts, and at
every snapshot a terminal step carries exactly one of its response text
and its error reason. -/
theorem C7_step_monotonicity (net : String → String → RpcOutcome)
    (o : Orchestrator) (task : EmergencyTask)
    (hfresh : ∀ s ∈ task.steps, pristineStep s) :
    List.Chain' taskRel (execute_task net o task).trace ∧
    ∀ t1 ∈ (execute_task net o task).trace, taskStepsOk t1 := by
  unfold execute_task
  by_cases hempty : task.steps.isEmpty
  · rw [if_pos hempty]
    refine ⟨List.chain'_singleton task, ?_⟩
    intro t1 hmem
    simp only [List.mem_singleton] at hmem
    rw [hmem]
    intro s hs
    exact stepTerminalOk_submitted s (hfresh s hs).1
  · rw [if_neg hempty]
    dsimp only
    have hsub : ∀ j (hj : j <
        ({ task with state := TaskState.working } :
          EmergencyTask).steps.length), 0 ≤ j →
        ((({ task with state := TaskState.working } :
          EmergencyTask)).steps.get ⟨j, hj⟩).status = TaskState.submitted := by
      intro j hj _
      have hmem : (({ task with state := TaskState.working } :
          EmergencyTask)).steps.get ⟨j, hj⟩ ∈ task.steps := by
        rw [List.get_eq_getElem]
        exact List.getElem_mem _
      exact (hfresh _ hmem).1
    have hpris : ∀ j (hj : j <
        ({ task with state := TaskState.working } :
          EmergencyTask).steps.length), 0 ≤ j →
        pristineStep ((({ task with state := TaskState.working } :
          EmergencyTask)).steps.get ⟨j, hj⟩) := by
      intro j hj _
      have hmem : (({ task with state := TaskState.working } :
          EmergencyTask)).steps.get ⟨j, hj⟩ ∈ task.steps := by
        rw [List.get_eq_getElem]
        exact List.getElem_mem _
      exact hfresh _ hmem
    have hok0 : taskStepsOk ({ task with state := TaskState.working } :
        EmergencyTask) := by
      intro s hs
      exact stepTerminalOk_submitted s (hfresh s hs).1
    have hchain1 := runStepsFrom_trace_chain net task.steps.length
      task.steps.length 0 { task with state := TaskState.working }
      (by simp) hsub
    have hterm1 := runStepsFrom_trace_terminal net task.steps.length
      task.steps.length 0 { task with state := TaskState.working }
      (by simp) hpris hok0
    obtain ⟨htne, htlast⟩ := runStepsFrom_trace_last net task.steps.length
      task.steps.length 0 { task with state := TaskState.working } (by simp)
    have hgl : (task :: { task with state := TaskState.working } ::
        (runStepsFrom net task.steps.length 0
          { task with state := TaskState.working }).2.2.2).getLast? =
        some (runStepsFrom net task.steps.length 0
          { task with state := TaskState.working }).1 := by
      rw [show (task :: { task with state := TaskState.working } ::
          (runStepsFrom net task.steps.length 0
            { task with state := TaskState.working }).2.2.2) =
          ([task, { task with state := TaskState.working }] ++
            (runStepsFrom net task.steps.length 0
              { task with state := TaskState.working }).2.2.2) from rfl]
      rw [List.getLast?_append, htlast]
      rfl
    constructor
    · have hA : List.Chain' taskRel
          (task :: { task with state := TaskState.working } ::
            (runStepsFrom net task.steps.length 0
              { task with state := TaskState.working }).2.2.2) :=
        List.chain'_cons.mpr ⟨taskRel_refl_of_eq _ _ le_rfl rfl, hchain1⟩
      have hB : List.Chain' taskRel
          ([{ (runStepsFrom net task.steps.length 0
              { task with state := TaskState.working }).1 with
                state := TaskState.completed }]) :=
        List.chain'_singleton _
      have hC : ∀ x ∈ (task :: { task with state := TaskState.working } ::
          (runStepsFrom net task.steps.length 0
            { task with state := TaskState.working }).2.2.2).getLast?,
          ∀ y ∈ ([{ (runStepsFrom net task.steps.length 0
              { task with state := TaskState.working }).1 with
                state := TaskState.completed }] :
              List EmergencyTask).head?, taskRel x y := by
        intro x hx y hy
        rw [hgl] at hx
        simp only [Option.mem_def, Option.some_inj] at hx
        simp only [List.head?_cons, Option.mem_def, Option.some_inj] at hy
        rw [← hx, ← hy]
        exact taskRel_refl_of_eq _ _ le_rfl rfl
      exact List.Chain'.append hA hB hC
    · intro t1 hmem
      rcases List.mem_cons.mp hmem with h1 | hmem2
      · rw [h1]
        intro s hs
        exact stepTerminalOk_submitted s (hfresh s hs).1
      rcases List.mem_cons.mp hmem2 with h2 | hmem3
      · rw [h2]
        exact hok0
      rcases List.mem_append.mp hmem3 with h3 | h4
      · exact hterm1 t1 h3
      · rw [List.mem_singleton] at h4
        rw [h4]
        intro s hs
        exact hterm1 _ (List.mem_of_getLast?_eq_some htlast) s hs

/-- Witness for C7: a single pristine step executed against a peer that
times out. -/
theorem C7_step_monotonicity_witness :
    (∀ s ∈ ({ task_id := "t1", context_id := "c1", location := ""
              description := "d"
              steps := [{ step_id := "t1-step-0", agent_name := "Fire"
                          agent_address := "http://fire"
                          agent_description := "f", message := "m" }]
              : EmergencyTask }).steps, pristineStep s) ∧
    (List.Chain' taskRel
      (execute_task (fun _ _ => RpcOutcome.timeoutError "slow")
        { active_tasks := [] }
        { task_id := "t1", context_id := "c1", location := ""
          description := "d"
          steps := [{ step_id := "t1-step-0", agent_name := "Fire"
                      agent_address := "http://fire"
                      agent_description := "f", message := "m" }] }).trace ∧
     ∀ t1 ∈ (execute_task (fun _ _ => RpcOutcome.timeoutError "slow")
        { active_tasks := [] }
        { task_id := "t1", context_id := "c1", location := ""
          description := "d"
          steps := [{ step_id := "t1-step-0", agent_name := "Fire"
                      agent_address := "http://fire"
                      agent_description := "f", message := "m" }] }).trace,
       taskStepsOk t1) := by
  constructor
  · decide
  · exact C7_step_monotonicity _ _ _ (by decide)

theorem dispatch_to_agent_none (net : String → String → RpcOutcome)
    (an aa msg cid : String) (h : (net aa msg).isResponse = false) :
    dispatch_to_agent net an aa msg cid = none := by
  unfold dispatch_to_agent
  cases ho : net aa msg
  · rw [ho] at h
    simp [RpcOutcome.isResponse] at h
  all_goals rfl

theorem eventsSpec_length (net : String → String → RpcOutcome)
    (tid cid : String) (total : Nat) : ∀ (ss : List DispatchStep) (i0 : Nat),
    (eventsSpec net tid cid total ss i0).length = 2 * ss.length := by
  intro ss
  induction ss with
  | nil => intro i0; rfl
  | cons a tail ih =>
    intro i0
    simp only [eventsSpec, List.length_cons, ih (i0 + 1)]
    omega

theorem eventsSpec_result_get (net : String → String → RpcOutcome)
    (tid cid : String) (total : Nat) :
    ∀ (ss : List DispatchStep) (i0 m : Nat) (s : DispatchStep),
    ss[m]? = some s →
    (eventsSpec net tid cid total ss i0)[2 * m + 1]? =
      some (resultEventOf net tid cid total (i0 + m) s) := by
  intro ss
  induction ss with
  | nil =>
    intro i0 m s hm
    simp at hm
  | cons a tail ih =>
    intro i0 m s hm
    cases m with
    | zero =>
      simp only [List.getElem?_cons_zero, Option.some_inj] at hm
      subst hm
      simp [eventsSpec]
    | succ m' =>
      simp only [List.getElem?_cons_succ] at hm
      have hrec := ih (i0 + 1) m' s hm
      have hidx : 2 * (m' + 1) + 1 = (2 * m' + 1) + 1 + 1 := by omega
      rw [hidx]
      simp only [eventsSpec, List.getElem?_cons_succ]
      rw [hrec]
      have : i0 + 1 + m' = i0 + (m' + 1) := by omega
      rw [this]

theorem dictGet_eq_none_of_not_any {α : Type} (d : List (String × α))
    (k : String) (h : d.any (fun p => p.1 = k) = false) :
    dictGet d k = none := by
  induction d with
  | nil => rfl
  | cons p t ih =>
    simp only [List.any_cons, Bool.or_eq_false_iff] at h
    have hp : ¬ p.1 = k := by simpa using h.1
    rw [dictGet_cons_eval]
    simp [hp, ih h.2]

theorem dictGet_dictRemove {α : Type} (d : List (String × α)) (k : String) :
    dictGet (dictRemove d k) k = none := by
  induction d with
  | nil => rfl
  | cons p t ih =>
    by_cases hp : p.1 = k
    · have : dictRemove (p :: t) k = dictRemove t k := by
        simp [dictRemove, List.filter_cons, hp]
      rw [this]
      exact ih
    · have : dictRemove (p :: t) k = p :: dictRemove t k := by
        simp [dictRemove, List.filter_cons, hp]
      rw [this, dictGet_cons_eval]
      simp [hp, ih]

/-- C1: for any executed task with at least one step, the final task state
is Completed no matter how many steps failed; the last emitted event is
final and carries the summary text, which is the all-succeeded message
(naming the successful services) exactly when no step failed and the
completed-with-issues message (naming both the successful and the failed
services) otherwise; and a step ends Completed exactly when its peer call
returned a response, every step ending terminal. -/
theorem C1_partial_failure_completion (net : String → String → RpcOutcome)
    (o : Orchestrator) (task : EmergencyTask) (h : task.steps ≠ []) :
    (execute_task net o task).task.state = TaskState.completed ∧
    (execute_task net o task).events.getLast? =
      some (send_message task.task_id task.context_id
        (finalMsgOf net task) true) ∧
    (((execDone net task).filter
        (fun s => s.status = TaskState.failed)).isEmpty = true →
      finalMsgOf net task = successMsgText ((execDone net task).filter
        (fun s => s.status = TaskState.completed))) ∧
    (((execDone net task).filter
        (fun s => s.status = TaskState.failed)).isEmpty = false →
      finalMsgOf net task = failureMsgText
        ((execDone net task).filter
          (fun s => s.status = TaskState.completed))
        ((execDone net task).filter
          (fun s => s.status = TaskState.failed))) ∧
    (∀ (j : Nat) (s0 : DispatchStep), task.steps[j]? = some s0 →
      ∃ s, (execute_task net o task).task.steps[j]? = some s ∧
        (s.status = TaskState.completed ↔
          (net s0.agent_address s0.message).isResponse = true) ∧
        (s.status = TaskState.completed ∨
          s.status = TaskState.failed)) := by
  have hne : ¬ task.steps.isEmpty = true := by
    simpa [List.isEmpty_iff] using h
  obtain ⟨ht, hev, _, _⟩ := execute_task_nonempty net o task hne
  refine ⟨?_, ?_, ?_, ?_, ?_⟩
  · rw [ht]
  · rw [hev]
    exact List.getLast?_concat _
  · intro hf
    simp [finalMsgOf, hf]
  · intro hf
    simp [finalMsgOf, hf]
  · intro j s0 h0
    rw [ht]
    refine ⟨processStep net task.context_id s0, ?_, ?_, ?_⟩
    · show (execDone net task)[j]? = _
      unfold execDone
      rw [List.getElem?_map, h0]
      rfl
    · exact processStep_completed_iff net task.context_id s0
    · exact processStep_status net task.context_id s0

/-- Witness for C1: three steps against a peer network where the middle
call times out; the task still completes. -/
theorem C1_partial_failure_completion_witness :
    (({ task_id := "t", context_id := "c", location := "", description := "d"
        steps := [{ step_id := "t-step-0", agent_name := "Fire"
                    agent_address := "http://a"
                    agent_description := "f", message := "m" },
                  { step_id := "t-step-1", agent_name := "Police"
                    agent_address := "http://b"
                    agent_description := "p", message := "m" },
                  { step_id := "t-step-2", agent_name := "Ambulance"
                    agent_address := "http://c"
                    agent_description := "a", message := "m" }]
        : EmergencyTask }).steps ≠ []) ∧
    (execute_task
      (fun addr _ => if addr = "http://b" then RpcOutcome.timeoutError "slow"
        else RpcOutcome.response { payload := "ok" })
      { active_tasks := [] }
      { task_id := "t", context_id := "c", location := "", description := "d"
        steps := [{ step_id := "t-step-0", agent_name := "Fire"
                    agent_address := "http://a"
                    agent_description := "f", message := "m" },
                  { step_id := "t-step-1", agent_name := "Police"
                    agent_address := "http://b"
                    agent_description := "p", message := "m" },
                  { step_id := "t-step-2", agent_name := "Ambulance"
                    agent_address := "http://c"
                    agent_description := "a", message := "m" }] }).task.state =
      TaskState.completed := by
  refine ⟨by decide, ?_⟩
  exact (C1_partial_failure_completion
    (fun addr _ => if addr = "http://b" then RpcOutcome.timeoutError "slow"
      else RpcOutcome.response { payload := "ok" })
    { active_tasks := [] }
    { task_id := "t", context_id := "c", location := "", description := "d"
      steps := [{ step_id := "t-step-0", agent_name := "Fire"
                  agent_address := "http://a"
                  agent_description := "f", message := "m" },
                { step_id := "t-step-1", agent_name := "Police"
                  agent_address := "http://b"
                  agent_description := "p", message := "m" },
                { step_id := "t-step-2", agent_name := "Ambulance"
                  agent_address := "http://c"
                  agent_description := "a", message := "m" }] }
    (by decide)).1

/-- C8: an exception of any class during a step's peer call (connection
error, timeout, protocol error, malformed response) is normalized by
`_dispatch_to_agent` into `none` — nothing propagates — and `execute_task`
records it as a Failed outcome with a human-readable reason on that step
only; every step is still dispatched, and any sibling whose call returns a
response ends Completed. -/
theorem C8_dispatch_fault_isolation (net : String → String → RpcOutcome)
    (o : Orchestrator) (task : EmergencyTask) (i : Nat)
    (si : DispatchStep) (hi : task.steps[i]? = some si)
    (hexc : (net si.agent_address si.message).isResponse = false) :
    dispatch_to_agent net si.agent_name si.agent_address si.message
      task.context_id = none ∧
    (∃ s, (execute_task net o task).task.steps[i]? = some s ∧
      s.status = TaskState.failed ∧
      s.error = some "Failed to contact agent") ∧
    (execute_task net o task).dispatches.length = task.steps.length ∧
    (∀ (j : Nat) (sj : DispatchStep), task.steps[j]? = some sj →
      (net sj.agent_address sj.message).isResponse = true →
      ∃ s, (execute_task net o task).task.steps[j]? = some s ∧
        s.status = TaskState.completed ∧
        s.response_received = some "En route") := by
  have hne : ¬ task.steps.isEmpty = true := by
    intro hh
    rw [List.isEmpty_iff] at hh
    rw [hh] at hi
    simp at hi
  obtain ⟨ht, _, hcalls, _⟩ := execute_task_nonempty net o task hne
  refine ⟨dispatch_to_agent_none net _ _ _ _ hexc, ?_, ?_, ?_⟩
  · refine ⟨processStep net task.context_id si, ?_, ?_⟩
    · rw [ht]
      show (execDone net task)[i]? = _
      unfold execDone
      rw [List.getElem?_map, hi]
      rfl
    · rw [processStep_of_failure net task.context_id si hexc]
      exact ⟨rfl, rfl⟩
  · rw [hcalls, List.length_map]
  · intro j sj hj hok
    refine ⟨processStep net task.context_id sj, ?_, ?_⟩
    · rw [ht]
      show (execDone net task)[j]? = _
      unfold execDone
      rw [List.getElem?_map, hj]
      rfl
    · cases ho : net sj.agent_address sj.message with
      | response r =>
        rw [processStep_of_response net task.context_id sj r ho]
        exact ⟨rfl, rfl⟩
      | connectError reason =>
        rw [ho] at hok
        simp [RpcOutcome.isResponse] at hok
      | timeoutError reason =>
        rw [ho] at hok
        simp [RpcOutcome.isResponse] at hok
      | protocolError reason =>
        rw [ho] at hok
        simp [RpcOutcome.isResponse] at hok
      | malformedResponse reason =>
        rw [ho] at hok
        simp [RpcOutcome.isResponse] at hok

/-- Witness for C8: step 0 hits a timeout, step 1 succeeds. -/
theorem C8_dispatch_fault_isolation_witness :
    (({ task_id := "t", context_id := "c", location := "", description := "d"
        steps := [{ step_id := "t-step-0", agent_name := "Fire"
                    agent_address := "http://a"
                    agent_description := "f", message := "m" },
                  { step_id := "t-step-1", agent_name := "Police"
                    agent_address := "http://b"
                    agent_description := "p", message := "m" }]
        : EmergencyTask }).steps[0]? =
      some { step_id := "t-step-0", agent_name := "Fire"
             agent_address := "http://a"
             agent_description := "f", message := "m" }) ∧
    dispatch_to_agent
      (fun addr _ => if addr = "http://a" then RpcOutcome.timeoutError "slow"
        else RpcOutcome.response { payload := "ok" })
      "Fire" "http://a" "m" "c" = none := by
  refine ⟨by decide, ?_⟩
  exact (C8_dispatch_fault_isolation
    (fun addr _ => if addr = "http://a" then RpcOutcome.timeoutError "slow"
      else RpcOutcome.response { payload := "ok" })
    { active_tasks := [] }
    { task_id := "t", context_id := "c", location := "", description := "d"
      steps := [{ step_id := "t-step-0", agent_name := "Fire"
                  agent_address := "http://a"
                  agent_description := "f", message := "m" },
                { step_id := "t-step-1", agent_name := "Police"
                  agent_address := "http://b"
                  agent_description := "p", message := "m" }] }
    0
    { step_id := "t-step-0", agent_name := "Fire"
      agent_address := "http://a"
      agent_description := "f", message := "m" }
    (by decide) (by decide)).1

/-- C10: whenever a step's peer call returns a response — whatever its
content — the step is marked Completed with the constant response text
`"En route"` recorded, and the per-step progress event reports exactly
`"... confirmed: En route"`. -/
theorem C10_en_route_constant (net : String → String → RpcOutcome)
    (o : Orchestrator) (task : EmergencyTask) (i : Nat)
    (si : DispatchStep) (r : SendMessageResponse)
    (hi : task.steps[i]? = some si)
    (hresp : net si.agent_address si.message = RpcOutcome.response r) :
    (∃ s, (execute_task net o task).task.steps[i]? = some s ∧
      s.status = TaskState.completed ∧
      s.response_received = some "En route") ∧
    (execute_task net o task).events[2 * i + 2]? =
      some (send_message task.task_id task.context_id
        ("[" ++ toString (i + 1) ++ "/" ++ toString task.steps.length ++ "]"
          ++ " " ++ si.agent_name ++ " confirmed: " ++ "En route")) := by
  have hne : ¬ task.steps.isEmpty = true := by
    intro hh
    rw [List.isEmpty_iff] at hh
    rw [hh] at hi
    simp at hi
  have hilt : i < task.steps.length := by
    rcases List.getElem?_eq_some_iff.mp hi with ⟨hlt, _⟩
    exact hlt
  obtain ⟨ht, hev, _, _⟩ := execute_task_nonempty net o task hne
  constructor
  · refine ⟨processStep net task.context_id si, ?_, ?_⟩
    · rw [ht]
      show (execDone net task)[i]? = _
      unfold execDone
      rw [List.getElem?_map, hi]
      rfl
    · rw [processStep_of_response net task.context_id si r hresp]
      exact ⟨rfl, rfl⟩
  · rw [hev]
    rw [show (2 * i + 2) = (2 * i + 1) + 1 from by omega]
    rw [List.cons_append]
    rw [List.getElem?_cons_succ]
    have hlen : (2 * i + 1) <
        (eventsSpec net task.task_id task.context_id task.steps.length
          task.steps 0).length := by
      rw [eventsSpec_length]
      omega
    rw [List.getElem?_append_left hlen]
    have hres := eventsSpec_result_get net task.task_id task.context_id
      task.steps.length task.steps 0 i si hi
    rw [hres]
    unfold resultEventOf dispatch_to_agent
    rw [hresp]
    simp only [Nat.zero_add]
    rfl

/-- Witness for C10: the peer responds with arbitrary payload text; the
recorded text is still "En route". -/
theorem C10_en_route_constant_witness :
    (({ task_id := "t", context_id := "c", location := "", description := "d"
        steps := [{ step_id := "t-step-0", agent_name := "Fire"
                    agent_address := "http://a"
                    agent_description := "f", message := "m" }]
        : EmergencyTask }).steps[0]? =
      some { step_id := "t-step-0", agent_name := "Fire"
             agent_address := "http://a"
             agent_description := "f", message := "m" }) ∧
    (execute_task
      (fun _ _ => RpcOutcome.response { payload := "we will be there in 5" })
      { active_tasks := [] }
      { task_id := "t", context_id := "c", location := "", description := "d"
        steps := [{ step_id := "t-step-0", agent_name := "Fire"
                    agent_address := "http://a"
                    agent_description := "f", message := "m" }] }).events[2]? =
      some (send_message "t" "c"
        ("[" ++ toString 1 ++ "/" ++ toString 1 ++ "]"
          ++ " " ++ "Fire" ++ " confirmed: " ++ "En route")) := by
  refine ⟨by decide, ?_⟩
  exact (C10_en_route_constant
    (fun _ _ => RpcOutcome.response { payload := "we will be there in 5" })
    { active_tasks := [] }
    { task_id := "t", context_id := "c", location := "", description := "d"
      steps := [{ step_id := "t-step-0", agent_name := "Fire"
                  agent_address := "http://a"
                  agent_description := "f", message := "m" }] }
    0
    { step_id := "t-step-0", agent_name := "Fire"
      agent_address := "http://a"
      agent_description := "f", message := "m" }
    { payload := "we will be there in 5" }
    (by decide) (by decide)).2

/-- C2 counterexample: on a task with zero steps, `execute_task` emits its
single event with `final=False` (the `_send_message` default) and leaves
the task state Submitted — it is not marked Completed. -/
theorem C2_zero_step_counterexample :
    ((execute_task (fun _ _ => RpcOutcome.response { payload := "ok" })
        { active_tasks := [] }
        { task_id := "t", context_id := "c", location := ""
          description := "d" }).events.map (fun e => e.final) = [false]) ∧
    (execute_task (fun _ _ => RpcOutcome.response { payload := "ok" })
        { active_tasks := [] }
        { task_id := "t", context_id := "c", location := ""
          description := "d" }).task.state ≠ TaskState.completed := by
  constructor
  · rfl
  · decide

/-- C2 (amended): on a task with zero steps, `execute_task` performs zero
dispatch calls and emits exactly one progress event, but that event is
emitted with `final=False` and the task object (state included) is left
unchanged — in particular it is not marked Completed. -/
theorem C2_zero_step_short_circuit (net : String → String → RpcOutcome)
    (o : Orchestrator) (task : EmergencyTask) (h : task.steps = []) :
    (execute_task net o task).dispatches = [] ∧
    (execute_task net o task).events.length = 1 ∧
    (∀ e ∈ (execute_task net o task).events, e.final = false) ∧
    (execute_task net o task).task = task ∧
    (execute_task net o task).orchestrator = o := by
  have hempty : task.steps.isEmpty = true := by simp [h]
  unfold execute_task
  rw [if_pos hempty]
  refine ⟨rfl, rfl, ?_, rfl, rfl⟩
  intro e he
  simp only [List.mem_singleton] at he
  rw [he]
  rfl

/-- Witness for the amended C2 at a concrete zero-step task. -/
theorem C2_zero_step_short_circuit_witness :
    (({ task_id := "t2", context_id := "c", location := ""
        description := "d" } : EmergencyTask).steps = []) ∧
    (execute_task (fun _ _ => RpcOutcome.timeoutError "x")
      { active_tasks := [] }
      { task_id := "t2", context_id := "c", location := ""
        description := "d" }).events.length = 1 :=
  ⟨rfl, (C2_zero_step_short_circuit (fun _ _ => RpcOutcome.timeoutError "x")
    { active_tasks := [] }
    { task_id := "t2", context_id := "c", location := ""
      description := "d" } rfl).2.1⟩

/-- Outcome of the validation LLM call as observed by
`_validate_emergency_request`: the call can raise, return empty content,
or return parsed JSON (missing keys already defaulted). -/
inductive ValidateLLMOutcome
  | failure
  | emptyContent
  | parsed (is_emergency : Bool) (suggested_response : String)
deriving DecidableEq, Repr

/-- `_validate_emergency_request`: an LLM failure or empty content errs on
the side of caution (treated as a valid emergency); otherwise the parsed
JSON decides. -/
def validate_emergency_request : ValidateLLMOutcome → Bool × String
  | .failure => (true, "Processing your emergency request...")
  | .emptyContent => (true, "Unable to validate - proceeding with caution")
  | .parsed is_emergency suggested => (is_emergency, suggested)

/-- Observable outcome of `create_task_plan`. -/
structure PlanOutcome where
  task : EmergencyTask
  events : List StatusEvent
  orchestrator : Orchestrator
  cacheState : AgentsCacheState
deriving Repr

/-- `create_task_plan`: validate the request, fetch the agent catalog,
match agents, append one dispatch step per match, and store the task in
the active-task map (only on the path that reaches matching). -/
def create_task_plan (o : Orchestrator) (cache : AgentsCacheState)
    (task_id context_id user_message : String)
    (vout : ValidateLLMOutcome) (fenv : FetchEnv)
    (llm : String → LLMMatchOutcome) : PlanOutcome :=
  let v := validate_emergency_request vout
  let is_valid := v.1
  let suggested_response := v.2
  if !is_valid then
    { task := { task_id := task_id, context_id := context_id, location := ""
                description := user_message, state := TaskState.failed }
      events := [send_message task_id context_id
        ("[CANCELLED] " ++ suggested_response)]
      orchestrator := o
      cacheState := cache }
  else
    let e1 := send_message task_id context_id
      ("[CONFIRMED] " ++ suggested_response)
    let e2 := send_message task_id context_id
      "[ALERT] Analyzing emergency situation and preparing dispatch..."
    let task : EmergencyTask :=
      { task_id := task_id, context_id := context_id, location := ""
        description := user_message }
    let e3 := send_message task_id context_id
      "Checking emergency services registry..."
    let fr := fetch_available_agents cache fenv (some (task_id, context_id))
    let available_agents := fr.agents
    let e4 := send_message task_id context_id
      ("Found " ++ toString available_agents.length
        ++ " emergency services available.")
    if available_agents.isEmpty then
      { task := task
        events := [e1, e2, e3] ++ fr.events ++
          [e4, send_message task_id context_id
            "[WARNING] No emergency services available in the registry."]
        orchestrator := o
        cacheState := fr.state }
    else
      let matched_agents :=
        (match_agents_to_emergency user_message available_agents llm).1
      let task := matched_agents.foldl
        (fun t p => t.add_step p.2.name p.1 p.2.description
          ("Emergency dispatch: " ++ user_message)) task
      let o2 : Orchestrator :=
        { active_tasks := dictInsert o.active_tasks task_id task }
      let planEvent :=
        if !task.steps.isEmpty then
          send_message task_id context_id
            ("[PLAN] Dispatch plan created: " ++
              String.intercalate ", "
                (task.steps.map (fun s => s.agent_name)))
        else
          send_message task_id context_id
            "[WARNING] No emergency services matched for this request."
      { task := task
        events := [e1, e2, e3] ++ fr.events ++ [e4, planEvent]
        orchestrator := o2
        cacheState := fr.state }

/-- C9 counterexample: `create_task_plan` stores a task whose matcher
returned no agents (zero steps); `execute_task` then finishes without ever
removing it from the active-task map, and the task is not terminal. -/
theorem C9_zero_step_task_never_removed :
    (let po := create_task_plan { active_tasks := [] }
        { cache := none, timestamp := none } "t9" "c9" "help"
        (ValidateLLMOutcome.parsed true "ok")
        { addresses := ["http://fire"]
          resolve := fun _ => some { name := "Fire", description := "f" }
          now := 0 }
        (fun _ => LLMMatchOutcome.parsed []);
     let r := execute_task
        (fun _ _ => RpcOutcome.response { payload := "ok" })
        po.orchestrator po.task;
     (dictGet po.orchestrator.active_tasks "t9").isSome = true ∧
       po.task.steps = [] ∧
       r.orchestrator.active_tasks = po.orchestrator.active_tasks ∧
       r.task.state ≠ TaskState.completed) := by
  decide

/-- C9 (amended): a task with at least one step is removed from the
active-task map by the time `execute_task` finishes; but a stored task
with zero steps is never removed — the zero-step short-circuit returns
with the active-task map unchanged. -/
theorem C9_active_task_cleanup (net : String → String → RpcOutcome)
    (o : Orchestrator) (task : EmergencyTask) :
    (task.steps ≠ [] →
      dictGet (execute_task net o task).orchestrator.active_tasks
        task.task_id = none) ∧
    (task.steps = [] →
      (execute_task net o task).orchestrator = o) := by
  constructor
  · intro h
    have hne : ¬ task.steps.isEmpty = true := by
      simpa [List.isEmpty_iff] using h
    obtain ⟨_, _, _, ho⟩ := execute_task_nonempty net o task hne
    rw [ho]
    by_cases hany : o.active_tasks.any (fun p => p.1 = task.task_id) = true
    · rw [if_pos hany]
      exact dictGet_dictRemove o.active_tasks task.task_id
    · rw [if_neg hany]
      exact dictGet_eq_none_of_not_any _ _ (Bool.eq_false_iff.mpr hany)
  · intro h
    have hempty : task.steps.isEmpty = true := by simp [h]
    unfold execute_task
    rw [if_pos hempty]

/-- Witness for the amended C9: a one-step stored task is removed. -/
theorem C9_active_task_cleanup_witness :
    (({ task_id := "t9", context_id := "c", location := "", description := "d"
        steps := [{ step_id := "t9-step-0", agent_name := "Fire"
                    agent_address := "http://a"
                    agent_description := "f", message := "m" }]
        : EmergencyTask }).steps ≠ []) ∧
    dictGet (execute_task
        (fun _ _ => RpcOutcome.response { payload := "ok" })
        { active_tasks := [("t9",
          { task_id := "t9", context_id := "c", location := ""
            description := "d"
            steps := [{ step_id := "t9-step-0", agent_name := "Fire"
                        agent_address := "http://a"
                        agent_description := "f", message := "m" }] })] }
        { task_id := "t9", context_id := "c", location := "", description := "d"
          steps := [{ step_id := "t9-step-0", agent_name := "Fire"
                      agent_address := "http://a"
                      agent_description := "f", message := "m" }]
          }).orchestrator.active_tasks "t9" = none := by
  refine ⟨by decide, ?_⟩
  exact (C9_active_task_cleanup
    (fun _ _ => RpcOutcome.response { payload := "ok" })
    { active_tasks := [("t9",
      { task_id := "t9", context_id := "c", location := ""
        description := "d"
        steps := [{ step_id := "t9-step-0", agent_name := "Fire"
                    agent_address := "http://a"
                    agent_description := "f", message := "m" }] })] }
    { task_id := "t9", context_id := "c", location := "", description := "d"
      steps := [{ step_id := "t9-step-0", agent_name := "Fire"
                  agent_address := "http://a"
                  agent_description := "f", message := "m" }] }).1
    (by decide)

end Demo
